import Mathlib

/-!
Verification of the remote-execution task engine of the `testum` repository.

Part 1 models the text algorithm of `SSHHelper.deploy_authorized_keys`
(`app/ssh_helper.py`): a Python `str` is modelled as its sequence of
code points (`List Char`), `str.split("\n")` as `splitNl`, `str.strip()`
as `pyStrip`, `"\n".join(sorted(set))` as `joinNl ∘ sortDedup`.

Part 2 (below) models the `SSHHelper` connection state machine and the
Celery task pipelines of `app/tasks.py`.
-/

namespace Testum

/-- Model of a Python `str`: the sequence of its Unicode code points. -/
abbrev PyStr := List Char

/-- Whitespace predicate used by Python `str.strip()` (ASCII part:
space, tab, newline, carriage return, vertical tab, form feed). -/
def isPySpace (c : Char) : Bool :=
  c == ' ' || c == '\t' || c == '\n' || c == '\r' || c == '\x0b' || c == '\x0c'

/-- Remove trailing whitespace characters (the right half of `str.strip()`). -/
def dropTrailing (l : PyStr) : PyStr :=
  List.foldr (fun c acc => if acc.isEmpty && isPySpace c then [] else c :: acc) [] l

/-- Model of Python `str.strip()`: drop leading and trailing whitespace. -/
def pyStrip (s : PyStr) : PyStr :=
  dropTrailing (s.dropWhile isPySpace)

/-- Model of Python `str.split("\n")`: split at every newline; `""` splits
to `[""]`, and a trailing newline yields a trailing empty fragment. -/
def splitNl : PyStr → List PyStr
  | [] => [[]]
  | c :: rest =>
    match splitNl rest with
    | [] => [[]]
    | line :: lines => if c = '\n' then [] :: line :: lines else (c :: line) :: lines

/-- Model of Python `"\n".join(...)`. -/
def joinNl : List PyStr → PyStr
  | [] => []
  | [x] => x
  | x :: xs => x ++ '\n' :: joinNl xs

/-- Model of Python `str.startswith("#")`. -/
def startsWithHash : PyStr → Bool
  | '#' :: _ => true
  | _ => false

/-- Existing `authorized_keys` lines kept by `deploy_authorized_keys`:
`set(line.strip() for line in existing_content.split("\n")
     if line.strip() and not line.strip().startswith("#"))`. -/
def parseLines (content : PyStr) : List PyStr :=
  ((splitNl content).map pyStrip).filter fun l => !l.isEmpty && !startsWithHash l

/-- New keys kept by `deploy_authorized_keys`:
`set(key.strip() for key in public_keys if key.strip())`. -/
def newKeysList (publicKeys : List PyStr) : List PyStr :=
  (publicKeys.map pyStrip).filter fun k => !k.isEmpty

/-- Insert a string into a sorted duplicate-free list, keeping it sorted
and duplicate-free (lexicographic code-point order, as Python `sorted`). -/
def insertKey (x : PyStr) : List PyStr → List PyStr
  | [] => [x]
  | y :: ys => if x = y then y :: ys else if x < y then x :: y :: ys else y :: insertKey x ys

/-- Model of Python `sorted(set(l))`: the sorted duplicate-free
enumeration of the elements of `l`. -/
def sortDedup (l : List PyStr) : List PyStr := l.foldr insertKey []

/-- The `authorized_keys` content written by
`SSHHelper.deploy_authorized_keys` (`app/ssh_helper.py` lines 316-329):
`"\n".join(sorted(existing_lines.union(new_keys))) + "\n"`. -/
def deployContent (existing : PyStr) (publicKeys : List PyStr) : PyStr :=
  joinNl (sortDedup (parseLines existing ++ newKeysList publicKeys)) ++ ['\n']

/-! ## Part 2: the `SSHHelper` connection state machine (`app/ssh_helper.py`)

Strings at this level are Lean `String`s (Python `str`). External
collaborators (Paramiko, `hashlib`, the network, the remote host) are
modelled by an environment record describing their behavior for one
call. -/

/-- State of `self.client` of an `SSHHelper`: `None`, an allocated
`SSHClient` whose transport is not established, or a connected client. -/
inductive ClientState
  | noClient
  | unconnected
  | connected
deriving DecidableEq, Repr

/-- Fields of an `SSHHelper` instance (`SSHHelper.__init__`). -/
structure SSHHelper where
  host : String
  port : Nat
  username : String
  password : Option String
  private_key_str : Option String
  known_host_fingerprint : Option String
  client : ClientState
deriving DecidableEq, Repr

/-- Outcome of the external `paramiko.SSHClient.connect` call (the host
key policy configuration only influences which outcome occurs). -/
inductive ConnectOutcome
  | ok
  | authFailure (msg : String)
  | sshFailure (msg : String)
  | otherFailure (msg : String)
deriving DecidableEq, Repr

/-- Environment of one `SSHHelper.connect` attempt. `remoteFingerprint`
is `hashlib.sha256(key.asbytes()).hexdigest()` for the observed remote
host key — the hash computation is an external collaborator, so the
model carries its result. `keyLoads` says whether one of
`RSAKey`/`Ed25519Key`/`ECDSAKey`/`DSSKey` parses `private_key_str`. -/
structure NetEnv where
  connectOutcome : ConnectOutcome
  remoteFingerprint : String
  keyLoads : Bool
deriving DecidableEq, Repr

/-- Observable external actions of an `SSHHelper`. -/
inductive NetEffect
  | paramikoConnect (host : String) (port : Nat) (username : String)
      (password : Option String) (usesKey : Bool)
  | closedTransport
deriving DecidableEq, Repr

/-- Model of `SSHHelper.close`: sets `self.client = None`. -/
def SSHHelper.close (h : SSHHelper) : SSHHelper := { h with client := .noClient }

/-- Model of `SSHHelper.get_host_fingerprint`: `None` without a live
transport, else the SHA-256 hex fingerprint of the remote host key. -/
def SSHHelper.get_host_fingerprint (h : SSHHelper) (env : NetEnv) : Option String :=
  if h.client = .connected then some env.remoteFingerprint else none

/-- Model of `SSHHelper.connect` (`app/ssh_helper.py` lines 68-132):
allocate the client, load the private key if one was given (an
unparsable key raises `ValueError`, caught by the broad handler),
perform the network connect, then verify the pinned fingerprint if one
was supplied, closing the transport and failing on mismatch. Returns
the new helper state, the `(success, error_message)` pair, and the
observable external actions. -/
def SSHHelper.connect (h : SSHHelper) (env : NetEnv) :
    SSHHelper × (Bool × Option String) × List NetEffect :=
  let h1 : SSHHelper := { h with client := .unconnected }
  if h1.private_key_str.isSome && !env.keyLoads then
    (h1, (false, some "Connection error: Unable to load private key. Unsupported key type."), [])
  else
    let eff := NetEffect.paramikoConnect h1.host h1.port h1.username h1.password
      h1.private_key_str.isSome
    match env.connectOutcome with
    | .ok =>
      let h2 : SSHHelper := { h1 with client := .connected }
      match h2.known_host_fingerprint with
      | some pin =>
        let actual := h2.get_host_fingerprint env
        if actual ≠ some pin then
          let msg := "Host key verification failed! Expected: " ++ pin ++ ", Got: "
            ++ actual.getD "None"
          (h2.close, (false, some msg), [eff, .closedTransport])
        else
          (h2, (true, none), [eff])
      | none => (h2, (true, none), [eff])
    | .authFailure m => (h1, (false, some ("Authentication failed: " ++ m)), [eff])
    | .sshFailure m => (h1, (false, some ("SSH error: " ++ m)), [eff])
    | .otherFailure m => (h1, (false, some ("Connection error: " ++ m)), [eff])

/-- Behavior of the remote command on the Paramiko channel: it either
finishes (with exit status and decoded output) or outruns the channel
timeout. -/
inductive ChannelBehavior
  | completes (exitCode : Int) (stdoutData stderrData : String)
  | timesOut
deriving DecidableEq, Repr

/-- Python exceptions surfaced by the model. -/
inductive PyError
  | runtimeError (msg : String)
  | socketTimeout
  | valueError (msg : String)
deriving DecidableEq, Repr

/-- Python `str(e)` for the modelled exceptions (`str(socket.timeout())`
is empty). -/
def pyErrorMsg : PyError → String
  | .runtimeError m => m
  | .valueError m => m
  | .socketTimeout => ""

/-- Model of `SSHHelper.execute_command` (`app/ssh_helper.py` lines
178-204). The method raises `RuntimeError` when `self.client` is
`None`; otherwise it passes the timeout to `exec_command` and reads the
streams. It has no timeout handler: when the remote command outruns the
channel timeout, the blocking read raises `socket.timeout` (Paramiko
semantics), which propagates — no branch synthesizes an exit code. -/
def SSHHelper.execute_command (h : SSHHelper) (command : String) (timeout : Nat)
    (chan : ChannelBehavior) : Except PyError (Int × String × String) :=
  if h.client = .noClient then
    .error (.runtimeError "Not connected. Call connect() first.")
  else
    match command, timeout, chan with
    | _, _, .completes code out err => .ok (code, out, err)
    | _, _, .timesOut => .error .socketTimeout

/-- Model of `SSHHelper.deploy_authorized_keys` (`app/ssh_helper.py`
lines 298-343). `ensureDirOk` is the outcome of `ensure_directory`,
`remote` the current remote `authorized_keys` content (`None` when the
file is absent — `read_file` soft-fails to `None`), and `writeOk` the
outcome of `write_file_atomic`. Returns the `(success, message)` pair
and the remote file content afterwards; the added-key count is
`len(merged_keys) - len(existing_lines)`. -/
def SSHHelper.deploy_authorized_keys (_h : SSHHelper) (publicKeys : List String)
    (ensureDirOk : Bool) (remote : Option String) (writeOk : Bool) :
    (Bool × String) × Option String :=
  if !ensureDirOk then ((false, "Failed to create .ssh directory"), remote)
  else
    let existing := remote.getD ""
    let existingCount := (sortDedup (parseLines existing.data)).length
    let mergedCount := (sortDedup (parseLines existing.data
        ++ newKeysList (publicKeys.map String.data))).length
    let newContent : String := ⟨deployContent existing.data (publicKeys.map String.data)⟩
    if writeOk then
      ((true, "Successfully deployed keys. Added " ++ toString (mergedCount - existingCount)
          ++ " new key(s)."), some newContent)
    else ((false, "Failed to write authorized_keys file"), remote)

/-! ## Part 3: the Celery task pipelines (`app/tasks.py`) -/

/-- Value of `Platform.auth_method` (`app/models.py`). -/
inductive AuthMethodEnum
  | password
  | private_key
deriving DecidableEq, Repr

/-- Value of `TaskRun.status` (`app/models.py`). -/
inductive TaskStatusEnum
  | pending
  | running
  | success
  | failed
deriving DecidableEq, Repr

/-- Fields of a `Platform` row used by the tasks (`app/models.py`). -/
structure PlatformRec where
  name : String
  host : String
  port : Nat
  username : String
  auth_method : AuthMethodEnum
  encrypted_password : Option String
  encrypted_private_key : Option String
  ssh_key_id : Option String
  known_host_fingerprint : Option String
deriving DecidableEq, Repr

/-- Fields of an `SSHKey` row used by the tasks. -/
structure SSHKeyRec where
  public_key : String
  encrypted_private_key : Option String
deriving DecidableEq, Repr

/-- Fields of a `TaskRun` row written by the tasks.
`task_metadata_exit_code` models `task_metadata = {"exit_code": ...}`;
`started`/`finished` model whether `started_at`/`finished_at` are set. -/
structure TaskRunRec where
  status : TaskStatusEnum
  started : Bool
  finished : Bool
  stdout : Option String
  stderr : Option String
  error_message : Option String
  result_location : Option String
  task_metadata_exit_code : Option Int
deriving DecidableEq, Repr

/-- The relational store visible to the tasks, as association lists. -/
structure DB where
  taskRuns : List (String × TaskRunRec)
  platforms : List (String × PlatformRec)
  sshKeys : List (String × SSHKeyRec)
deriving DecidableEq, Repr

/-- Row lookup by primary key. -/
def DB.getTaskRun (db : DB) (id : String) : Option TaskRunRec := db.taskRuns.lookup id

/-- Row lookup by primary key. -/
def DB.getPlatform (db : DB) (id : String) : Option PlatformRec := db.platforms.lookup id

/-- Row lookup by primary key. -/
def DB.getSSHKey (db : DB) (id : String) : Option SSHKeyRec := db.sshKeys.lookup id

/-- Overwrite the task-run row with the given id (ORM mutation + commit). -/
def DB.setTaskRun (db : DB) (id : String) (r : TaskRunRec) : DB :=
  { db with taskRuns := db.taskRuns.map fun p => if p.1 = id then (id, r) else p }

/-- Overwrite the platform row with the given id (ORM mutation + commit). -/
def DB.setPlatform (db : DB) (id : String) (r : PlatformRec) : DB :=
  { db with platforms := db.platforms.map fun p => if p.1 = id then (id, r) else p }

/-- Model of the key query (`tasks.py` lines 151-154): a truthy
`key_ids` selects the rows whose id is listed (missing ids are silently
dropped), else all rows. -/
def DB.queryKeys (db : DB) (key_ids : Option (List String)) : List SSHKeyRec :=
  match key_ids with
  | some ids =>
    if ids.isEmpty then db.sshKeys.map Prod.snd
    else (db.sshKeys.filter fun p => ids.contains p.1).map Prod.snd
  | none => db.sshKeys.map Prod.snd

/-- Credential resolution of both tasks (`tasks.py` lines 136-148 and
262-274): returns `(password, private_key)`. For `password` auth the
encrypted password is decrypted when present; for `private_key` auth
the referenced SSH key's stored encrypted private key takes precedence,
falling back to the platform's legacy inline encrypted key. Both stay
`None` when nothing resolves — no error is raised here. -/
def resolveCredentials (db : DB) (p : PlatformRec) (decrypt : String → String) :
    Option String × Option String :=
  if p.auth_method = .password then
    (p.encrypted_password.map decrypt, none)
  else
    (none,
      match p.ssh_key_id with
      | some kid =>
        match db.getSSHKey kid with
        | some k => k.encrypted_private_key.map decrypt
        | none => none
      | none => p.encrypted_private_key.map decrypt)

/-- External environment of one task execution: network behavior,
channel behavior of the executed command, the crypto collaborator
(`crypto.decrypt_string`), the timestamp string used in S3 keys, and
the remote-filesystem outcomes for key deployment. -/
structure TaskEnv where
  net : NetEnv
  chan : ChannelBehavior
  decrypt : String → String
  ts : String
  ensureDirOk : Bool
  remoteAuth : Option String
  writeOk : Bool

/-- Observable state threaded through one task execution: the database,
the published stream events (`publish_task_message`), the S3 uploads
(`upload_to_s3`), and the network actions of the SSH helper. -/
structure TaskCtx where
  db : DB
  events : List (String × String)
  s3 : List (String × String)
  net : List NetEffect

/-- Model of `publish_task_message`. -/
def publish (c : TaskCtx) (ty payload : String) : TaskCtx :=
  { c with events := c.events ++ [(ty, payload)] }

/-- Model of `upload_to_s3`. -/
def upload (c : TaskCtx) (key content : String) : TaskCtx :=
  { c with s3 := c.s3 ++ [(key, content)] }

/-- The `except Exception` block shared by both tasks (`tasks.py` lines
211-224 and 329-342): re-query the task row, persist FAILED with the
captured error message when the row exists, publish an `error` event,
and re-raise. -/
def taskExceptBlock (failureLabel task_run_id : String) (c : TaskCtx) (msg : String) :
    TaskCtx × Option String :=
  let c1 :=
    match c.db.getTaskRun task_run_id with
    | some tr =>
      let trFailed : TaskRunRec :=
        { tr with
          status := .failed, finished := true, error_message := some msg }
      { c with db := c.db.setTaskRun task_run_id trFailed }
    | none => c
  (publish c1 "error" (failureLabel ++ msg), some msg)

/-- Python `len(s)` in code points. -/
def pyLen (s : String) : Nat := s.data.length

/-- Python slicing `s[:n]`. -/
def pySlice (s : String) (n : Nat) : String := ⟨s.data.take n⟩

/-- Inline per-stream copy persisted on the task row (`tasks.py` lines
319-320): `s[:5000] if len(s) <= 5000 else s[:5000] + "... (truncated)"`. -/
def inlineCopy (s : String) : String :=
  if pyLen s ≤ 5000 then pySlice s 5000 else pySlice s 5000 ++ "... (truncated)"

/-- The archived combined output (`tasks.py` line 312). -/
def combinedOutput (stdoutData stderrData : String) (exitCode : Int) : String :=
  "=== STDOUT ===\n" ++ stdoutData ++ "\n\n=== STDERR ===\n" ++ stderrData
    ++ "\n\n=== EXIT CODE ===\n" ++ toString exitCode

/-- `str.split("\n")` at the `String` level. -/
def splitNlS (s : String) : List String := (splitNl s.data).map fun l => ⟨l⟩

/-- The SSH helper constructed by both tasks (`tasks.py` lines 162-169
and 277-284) from a platform row and resolved credentials. -/
def taskHelper (platform : PlatformRec) (creds : Option String × Option String) : SSHHelper :=
  { host := platform.host, port := platform.port, username := platform.username,
    password := creds.1, private_key_str := creds.2,
    known_host_fingerprint := platform.known_host_fingerprint,
    client := .noClient }

/-- Model of the Celery task `deploy_keys_task` (`app/tasks.py` lines
104-224). The returned `Option String` is the message of the re-raised
exception, `none` on success. -/
def deploy_keys_task (env : TaskEnv) (c0 : TaskCtx)
    (task_run_id platform_id : String) (key_ids : Option (List String)) :
    TaskCtx × Option String :=
  match c0.db.getTaskRun task_run_id with
  | none => taskExceptBlock "Deployment failed: " task_run_id c0
      ("TaskRun " ++ task_run_id ++ " not found")
  | some tr =>
    let trRunning : TaskRunRec := { tr with status := .running, started := true }
    let c := { c0 with db := c0.db.setTaskRun task_run_id trRunning }
    let c := publish c "progress" "Starting key deployment..."
    match c.db.getPlatform platform_id with
    | none => taskExceptBlock "Deployment failed: " task_run_id c
        ("Platform " ++ platform_id ++ " not found")
    | some platform =>
      let c := publish c "progress"
        ("Connecting to " ++ platform.name ++ " (" ++ platform.host ++ ")...")
      let creds := resolveCredentials c.db platform env.decrypt
      let keys := c.db.queryKeys key_ids
      if keys.isEmpty then
        taskExceptBlock "Deployment failed: " task_run_id c "No keys found to deploy"
      else
        let c := publish c "progress"
          ("Found " ++ toString keys.length ++ " key(s) to deploy")
        let conn := (taskHelper platform creds).connect env.net
        let c := { c with net := c.net ++ conn.2.2 }
        if conn.2.1.1 = false then
          taskExceptBlock "Deployment failed: " task_run_id c
            ("SSH connection failed: " ++ conn.2.1.2.getD "None")
        else
          let c :=
            if platform.known_host_fingerprint = none then
              match conn.1.get_host_fingerprint env.net with
              | some fp =>
                let p2 : PlatformRec :=
                  { platform with known_host_fingerprint := some fp }
                let c1 := { c with db := c.db.setPlatform platform_id p2 }
                publish c1 "progress"
                  ("Saved host fingerprint: " ++ pySlice fp 16 ++ "...")
              | none => c
            else c
          let c := publish c "progress" "Connected successfully. Deploying keys..."
          let public_keys := keys.map SSHKeyRec.public_key
          let dres := conn.1.deploy_authorized_keys public_keys env.ensureDirOk
            env.remoteAuth env.writeOk
          if dres.1.1 = false then
            taskExceptBlock "Deployment failed: " task_run_id c
              ("Key deployment failed: " ++ dres.1.2)
          else
            let c := publish c "progress" dres.1.2
            let snapshot := dres.2.getD ""
            let s3key := "platforms/" ++ platform_id ++ "/authorized_keys_"
              ++ env.ts ++ ".txt"
            let c := upload c s3key snapshot
            let trFinal : TaskRunRec := { trRunning with
              status := .success, finished := true,
              result_location := some s3key, stdout := some dres.1.2 }
            let c := { c with db := c.db.setTaskRun task_run_id trFinal }
            let c := publish c "done" ("Deployment completed successfully. " ++ dres.1.2)
            (c, none)

/-- Model of the Celery task `run_command_task` (`app/tasks.py` lines
231-342). -/
def run_command_task (env : TaskEnv) (c0 : TaskCtx)
    (task_run_id platform_id command : String) (timeout : Nat) :
    TaskCtx × Option String :=
  match c0.db.getTaskRun task_run_id with
  | none => taskExceptBlock "Command execution failed: " task_run_id c0
      ("TaskRun " ++ task_run_id ++ " not found")
  | some tr =>
    let trRunning : TaskRunRec := { tr with status := .running, started := true }
    let c := { c0 with db := c0.db.setTaskRun task_run_id trRunning }
    let c := publish c "progress" ("Executing command: " ++ command)
    match c.db.getPlatform platform_id with
    | none => taskExceptBlock "Command execution failed: " task_run_id c
        ("Platform " ++ platform_id ++ " not found")
    | some platform =>
      let creds := resolveCredentials c.db platform env.decrypt
      let conn := (taskHelper platform creds).connect env.net
      let c := { c with net := c.net ++ conn.2.2 }
      if conn.2.1.1 = false then
        taskExceptBlock "Command execution failed: " task_run_id c
          ("SSH connection failed: " ++ conn.2.1.2.getD "None")
      else
        let c := publish c "progress" "Connected. Running command..."
        match conn.1.execute_command command timeout env.chan with
        | .error e => taskExceptBlock "Command execution failed: " task_run_id c
            (pyErrorMsg e)
        | .ok (exit_code, stdoutData, stderrData) =>
          let c := ((splitNlS stdoutData).filter fun l => l ≠ "").foldl
            (fun c1 l => publish c1 "stdout" l) c
          let c := ((splitNlS stderrData).filter fun l => l ≠ "").foldl
            (fun c1 l => publish c1 "stderr" l) c
          let s3key := "tasks/" ++ task_run_id ++ "/output_" ++ env.ts ++ ".txt"
          let c := if pyLen stdoutData + pyLen stderrData > 10000 then
              upload c s3key (combinedOutput stdoutData stderrData exit_code)
            else c
          let result_location : Option String :=
            if pyLen stdoutData + pyLen stderrData > 10000 then some s3key else none
          let trFinal : TaskRunRec := { trRunning with
            status := if exit_code = 0 then .success else .failed,
            finished := true,
            stdout := some (inlineCopy stdoutData),
            stderr := some (inlineCopy stderrData),
            result_location := result_location,
            task_metadata_exit_code := some exit_code }
          let c := { c with db := c.db.setTaskRun task_run_id trFinal }
          let c := publish c "done"
            ("Command completed with exit code " ++ toString exit_code)
          (c, none)

/-- The task row written by `run_command_task` on the path that reaches
command execution. -/
def runCommandFinalRec (tr : TaskRunRec) (exit_code : Int)
    (stdoutData stderrData : String) (task_run_id ts : String) : TaskRunRec :=
  { tr with
    status := if exit_code = 0 then TaskStatusEnum.success else .failed,
    started := true,
    finished := true,
    stdout := some (inlineCopy stdoutData),
    stderr := some (inlineCopy stderrData),
    result_location := if pyLen stdoutData + pyLen stderrData > 10000 then
        some ("tasks/" ++ task_run_id ++ "/output_" ++ ts ++ ".txt")
      else none,
    task_metadata_exit_code := some exit_code }

/-! ### Concrete inputs used by witnesses and counterexamples -/

/-- Concrete helper with a pinned fingerprint. -/
def pinnedHelper : SSHHelper :=
  { host := "h1", port := 22, username := "root", password := some "pw",
    private_key_str := none, known_host_fingerprint := some "aabb",
    client := .noClient }

/-- Concrete environment observing a fingerprint other than the pin. -/
def mismatchEnv : NetEnv :=
  { connectOutcome := .ok, remoteFingerprint := "ccdd", keyLoads := true }

/-- Concrete connected session. -/
def connectedHelper : SSHHelper :=
  { host := "h1", port := 22, username := "root", password := none,
    private_key_str := none, known_host_fingerprint := none,
    client := .connected }

/-- A pending task row, as created by the caller before enqueueing. -/
def pendingTask : TaskRunRec :=
  { status := .pending, started := false, finished := false, stdout := none,
    stderr := none, error_message := none, result_location := none,
    task_metadata_exit_code := none }

/-- Platform with `private_key` auth whose key reference and legacy
inline key both resolve to no key material. -/
def keylessPlatform : PlatformRec :=
  { name := "p1", host := "h1", port := 22, username := "root",
    auth_method := .private_key, encrypted_password := none,
    encrypted_private_key := none, ssh_key_id := none,
    known_host_fingerprint := none }

/-- Platform with password auth and a matching pinned fingerprint. -/
def pwPlatform : PlatformRec :=
  { name := "p1", host := "h1", port := 22, username := "root",
    auth_method := .password, encrypted_password := some "enc",
    encrypted_private_key := none, ssh_key_id := none,
    known_host_fingerprint := some "ff" }

/-- An SSH key row with no stored private key. -/
def pubOnlyKey : SSHKeyRec :=
  { public_key := "ssh-ed25519 AAA a@b", encrypted_private_key := none }

/-- Store with the pending task, the credential-less platform, and one
public-only SSH key. -/
def dbKeyless : DB :=
  { taskRuns := [("t1", pendingTask)],
    platforms := [("p1", keylessPlatform)],
    sshKeys := [("k1", pubOnlyKey)] }

/-- Store with the pending task and the password platform. -/
def dbRun : DB :=
  { taskRuns := [("t1", pendingTask)],
    platforms := [("p1", pwPlatform)],
    sshKeys := [] }

/-- Fresh context over a store. -/
def emptyCtx (db : DB) : TaskCtx := { db := db, events := [], s3 := [], net := [] }

/-- Network behavior rejecting the authentication attempt. -/
def authFailNet : NetEnv :=
  { connectOutcome := .authFailure "Authentication failed.",
    remoteFingerprint := "ff", keyLoads := true }

/-- Environment where the credential-less connect attempt is rejected
by the remote sshd. -/
def envAuthFail : TaskEnv :=
  { net := authFailNet, chan := .completes 0 "" "", decrypt := fun s => s,
    ts := "20260101_000000", ensureDirOk := true, remoteAuth := none,
    writeOk := true }

/-- Network behavior accepting the connection and presenting the host
key whose fingerprint is `"ff"`. -/
def okNet : NetEnv :=
  { connectOutcome := .ok, remoteFingerprint := "ff", keyLoads := true }

/-- Environment whose connect succeeds against the pinned fingerprint
and whose command completes with the given channel behavior. -/
def happyEnv (chan : ChannelBehavior) : TaskEnv :=
  { net := okNet, chan := chan, decrypt := fun s => s,
    ts := "20260101_000000", ensureDirOk := true, remoteAuth := none,
    writeOk := true }

/-- A 10001-character stdout. -/
def bigOut : String := ⟨List.replicate 10001 'a'⟩

/-- A 5001-character stdout. -/
def midOut : String := ⟨List.replicate 5001 'a'⟩

/-- The truncation marker as the spec and claim C7 quote it (no space). -/
def specMarker : PyStr := "...(truncated)".data

/-- The truncation marker the code appends (`tasks.py` line 319). -/
def codeMarker : PyStr := "... (truncated)".data

/-- Whether `pat` begins the string (over code points). -/
def beginsWith : PyStr → PyStr → Bool
  | [], _ => true
  | _ :: _, [] => false
  | a :: pa, b :: sb => a == b && beginsWith pa sb

/-- Whether `pat` occurs as a contiguous substring (over code points). -/
def containsSub (pat : PyStr) : PyStr → Bool
  | [] => beginsWith pat []
  | c :: rest => beginsWith pat (c :: rest) || containsSub pat rest

/-! ### Basic lemmas about the string operations -/

theorem splitNl_ne_nil (s : PyStr) : splitNl s ≠ [] := by
  cases s with
  | nil => simp [splitNl]
  | cons c rest =>
    simp only [splitNl]
    cases h : splitNl rest with
    | nil => simp
    | cons line lines => by_cases hc : c = '\n' <;> simp [hc]

theorem splitNl_cons (c : Char) (rest : PyStr) :
    splitNl (c :: rest) =
      match splitNl rest with
      | [] => [[]]
      | line :: lines => if c = '\n' then [] :: line :: lines else (c :: line) :: lines := rfl

theorem splitNl_append (a b : PyStr) :
    splitNl (a ++ '\n' :: b) = splitNl a ++ splitNl b := by
  induction a with
  | nil =>
    show splitNl ('\n' :: b) = [[]] ++ splitNl b
    rw [splitNl_cons]
    cases hb : splitNl b with
    | nil => exact absurd hb (splitNl_ne_nil b)
    | cons lb lbs => simp
  | cons c a ih =>
    rw [List.cons_append, splitNl_cons, ih, splitNl_cons]
    cases ha : splitNl a with
    | nil => exact absurd ha (splitNl_ne_nil a)
    | cons la ls =>
      by_cases hc : c = '\n' <;> simp [hc]

theorem splitNl_of_no_newline {s : PyStr} (h : '\n' ∉ s) : splitNl s = [s] := by
  induction s with
  | nil => rfl
  | cons c rest ih =>
    have hc : c ≠ '\n' := fun hc => h (hc ▸ List.mem_cons_self c rest)
    have hrest : '\n' ∉ rest := fun hr => h (List.mem_cons_of_mem c hr)
    simp [splitNl, ih hrest, hc]

theorem no_newline_of_mem_splitNl {s x : PyStr} (hx : x ∈ splitNl s) : '\n' ∉ x := by
  induction s generalizing x with
  | nil => simp [splitNl] at hx; simp [hx]
  | cons c rest ih =>
    simp only [splitNl] at hx
    cases ha : splitNl rest with
    | nil => exact absurd ha (splitNl_ne_nil rest)
    | cons line lines =>
      rw [ha] at hx
      by_cases hc : c = '\n'
      · simp [hc] at hx
        rcases hx with hx | hx | hx
        · simp [hx]
        · exact ih (hx ▸ ha ▸ List.mem_cons_self line lines)
        · exact ih (ha ▸ List.mem_cons_of_mem line hx)
      · simp [hc] at hx
        rcases hx with hx | hx
        · intro hmem
          rw [hx] at hmem
          rcases List.mem_cons.mp hmem with h1 | h1
          · exact hc h1.symm
          · exact ih (ha ▸ List.mem_cons_self line lines) h1
        · exact ih (ha ▸ List.mem_cons_of_mem line hx)

theorem splitNl_joinNl {l : List PyStr} (hnl : ∀ x ∈ l, '\n' ∉ x) (hne : l ≠ []) :
    splitNl (joinNl l) = l := by
  induction l with
  | nil => exact absurd rfl hne
  | cons x xs ih =>
    cases xs with
    | nil => exact splitNl_of_no_newline (hnl x (List.mem_cons_self x []))
    | cons y ys =>
      have hx : '\n' ∉ x := hnl x (List.mem_cons_self x (y :: ys))
      have hxs : ∀ z ∈ y :: ys, '\n' ∉ z := fun z hz => hnl z (List.mem_cons_of_mem x hz)
      show splitNl (x ++ '\n' :: joinNl (y :: ys)) = x :: y :: ys
      rw [splitNl_append, splitNl_of_no_newline hx, ih hxs (by simp)]
      rfl

theorem mem_splitNl_joinNl {l : List PyStr} {x : PyStr} (hx : x ∈ l) (hnl : '\n' ∉ x) :
    x ∈ splitNl (joinNl l) := by
  induction l with
  | nil => simp at hx
  | cons y ys ih =>
    cases ys with
    | nil =>
      rcases List.mem_cons.mp hx with h | h
      · subst h
        show x ∈ splitNl x
        rw [splitNl_of_no_newline hnl]
        exact List.mem_cons_self x []
      · simp at h
    | cons z zs =>
      show x ∈ splitNl (y ++ '\n' :: joinNl (z :: zs))
      rw [splitNl_append]
      rcases List.mem_cons.mp hx with h | h
      · subst h
        exact List.mem_append_left _ (by rw [splitNl_of_no_newline hnl]; exact List.mem_cons_self x [])
      · exact List.mem_append_right _ (ih h)

/-! ### Lemmas about `pyStrip` -/

theorem dropTrailing_cons (c : Char) (l : PyStr) :
    dropTrailing (c :: l) =
      if (dropTrailing l).isEmpty && isPySpace c then [] else c :: dropTrailing l := rfl

theorem dropTrailing_idem (l : PyStr) : dropTrailing (dropTrailing l) = dropTrailing l := by
  induction l with
  | nil => rfl
  | cons c l ih =>
    rw [dropTrailing_cons]
    by_cases h : (dropTrailing l).isEmpty && isPySpace c
    · rw [if_pos h]; rfl
    · rw [if_neg h, dropTrailing_cons, ih, if_neg h]

theorem mem_dropTrailing {c : Char} {l : PyStr} (h : c ∈ dropTrailing l) : c ∈ l := by
  induction l with
  | nil => simp [dropTrailing] at h
  | cons d l ih =>
    rw [dropTrailing_cons] at h
    by_cases hc : (dropTrailing l).isEmpty && isPySpace d
    · simp [hc] at h
    · rw [if_neg hc] at h
      rcases List.mem_cons.mp h with h1 | h1
      · exact h1 ▸ List.mem_cons_self d l
      · exact List.mem_cons_of_mem d (ih h1)

theorem dropWhile_idem (p : Char → Bool) (l : PyStr) :
    List.dropWhile p (List.dropWhile p l) = List.dropWhile p l := by
  induction l with
  | nil => rfl
  | cons c l ih =>
    by_cases hc : p c
    · simp [List.dropWhile_cons, hc, ih]
    · simp [List.dropWhile_cons, hc]

theorem dropWhile_dropTrailing (p : Char → Bool) (l : PyStr)
    (hl : List.dropWhile p l = l) : List.dropWhile p (dropTrailing l) = dropTrailing l := by
  cases l with
  | nil => rfl
  | cons c l =>
    have hc : p c = false := by
      cases hpc : p c
      · rfl
      · exfalso
        rw [List.dropWhile_cons, if_pos hpc] at hl
        have hsuf : List.dropWhile p l <:+ l := List.dropWhile_suffix p
        rw [hl] at hsuf
        have hlen := List.IsSuffix.length_le hsuf
        simp at hlen
    rw [dropTrailing_cons]
    by_cases h : (dropTrailing l).isEmpty && isPySpace c
    · simp [h]
    · rw [if_neg h, List.dropWhile_cons, hc]
      simp

theorem pyStrip_idem (s : PyStr) : pyStrip (pyStrip s) = pyStrip s := by
  unfold pyStrip
  rw [dropWhile_dropTrailing isPySpace _ (dropWhile_idem isPySpace s), dropTrailing_idem]

theorem mem_pyStrip {c : Char} {s : PyStr} (h : c ∈ pyStrip s) : c ∈ s := by
  unfold pyStrip at h
  have h1 := mem_dropTrailing h
  have h2 : List.dropWhile isPySpace s <:+ s := List.dropWhile_suffix isPySpace
  exact h2.subset h1

/-! ### Lemmas about `sortDedup` -/

theorem mem_insertKey (a x : PyStr) (l : List PyStr) :
    a ∈ insertKey x l ↔ a = x ∨ a ∈ l := by
  induction l with
  | nil => simp [insertKey]
  | cons y ys ih =>
    simp only [insertKey]
    by_cases h1 : x = y
    · subst h1
      rw [if_pos rfl]
      simp only [List.mem_cons]
      tauto
    · rw [if_neg h1]
      by_cases h2 : x < y
      · rw [if_pos h2]
        simp [List.mem_cons]
      · rw [if_neg h2]
        simp only [List.mem_cons, ih]
        tauto

theorem sorted_insertKey {l : List PyStr} (x : PyStr) (h : l.Sorted (· < ·)) :
    (insertKey x l).Sorted (· < ·) := by
  induction l with
  | nil => simp [insertKey]
  | cons y ys ih =>
    rw [List.sorted_cons] at h
    obtain ⟨hy, hys⟩ := h
    simp only [insertKey]
    by_cases h1 : x = y
    · rw [if_pos h1, List.sorted_cons]
      exact ⟨hy, hys⟩
    · rw [if_neg h1]
      by_cases h2 : x < y
      · rw [if_pos h2, List.sorted_cons]
        refine ⟨?_, ?_⟩
        · intro b hb
          rcases List.mem_cons.mp hb with h3 | h3
          · exact h3 ▸ h2
          · exact lt_trans h2 (hy b h3)
        · rw [List.sorted_cons]; exact ⟨hy, hys⟩
      · rw [if_neg h2, List.sorted_cons]
        have hyx : y < x := by
          rcases lt_trichotomy x y with h3 | h3 | h3
          · exact absurd h3 h2
          · exact absurd h3 h1
          · exact h3
        refine ⟨?_, ih hys⟩
        intro b hb
        rcases (mem_insertKey b x ys).mp hb with h3 | h3
        · exact h3 ▸ hyx
        · exact hy b h3

theorem mem_sortDedup (a : PyStr) (l : List PyStr) : a ∈ sortDedup l ↔ a ∈ l := by
  induction l with
  | nil => simp [sortDedup]
  | cons x xs ih =>
    show a ∈ insertKey x (sortDedup xs) ↔ _
    rw [mem_insertKey, ih]
    simp

theorem sorted_sortDedup (l : List PyStr) : (sortDedup l).Sorted (· < ·) := by
  induction l with
  | nil => simp [sortDedup]
  | cons x xs ih => exact sorted_insertKey x ih

theorem nodup_sortDedup (l : List PyStr) : (sortDedup l).Nodup :=
  (sorted_sortDedup l).nodup

theorem sortDedup_congr {l₁ l₂ : List PyStr} (h : ∀ a, a ∈ l₁ ↔ a ∈ l₂) :
    sortDedup l₁ = sortDedup l₂ := by
  have hs₁ := sorted_sortDedup l₁
  have hs₂ := sorted_sortDedup l₂
  have hperm : List.Perm (sortDedup l₁) (sortDedup l₂) := by
    refine (List.perm_ext_iff_of_nodup (nodup_sortDedup l₁) (nodup_sortDedup l₂)).2 ?_
    intro a
    rw [mem_sortDedup, mem_sortDedup]
    exact h a
  exact List.eq_of_perm_of_sorted hperm
    (hs₁.imp fun {a b} hab => le_of_lt hab)
    (hs₂.imp fun {a b} hab => le_of_lt hab)

/-! ### Structure of parsed and merged key lists -/

theorem mem_parseLines {x : PyStr} {c : PyStr} (hx : x ∈ parseLines c) :
    pyStrip x = x ∧ x ≠ [] ∧ startsWithHash x = false ∧ '\n' ∉ x := by
  unfold parseLines at hx
  rw [List.mem_filter] at hx
  obtain ⟨hmem, hcond⟩ := hx
  rw [List.mem_map] at hmem
  obtain ⟨y, hy, hxy⟩ := hmem
  have hfix : pyStrip x = x := by rw [← hxy, pyStrip_idem]
  simp only [Bool.and_eq_true, Bool.not_eq_true'] at hcond
  have hcond' : x ≠ [] ∧ startsWithHash x = false := by
    refine ⟨?_, hcond.2⟩
    intro hnil
    rw [hnil] at hcond
    simp [List.isEmpty] at hcond
  refine ⟨hfix, hcond'.1, hcond'.2, ?_⟩
  intro hnlx
  exact no_newline_of_mem_splitNl hy (mem_pyStrip (hxy ▸ hnlx))

theorem mem_newKeysList {x : PyStr} {K : List PyStr} (hx : x ∈ newKeysList K) :
    pyStrip x = x ∧ x ≠ [] := by
  unfold newKeysList at hx
  rw [List.mem_filter] at hx
  obtain ⟨hmem, hcond⟩ := hx
  rw [List.mem_map] at hmem
  obtain ⟨y, _, hxy⟩ := hmem
  refine ⟨by rw [← hxy, pyStrip_idem], ?_⟩
  intro hnil
  rw [hnil] at hcond
  simp [List.isEmpty] at hcond

theorem mem_newKeysList_strip {x : PyStr} {K : List PyStr} (hx : x ∈ newKeysList K) :
    ∃ k ∈ K, pyStrip k = x := by
  unfold newKeysList at hx
  rw [List.mem_filter] at hx
  obtain ⟨hmem, _⟩ := hx
  rw [List.mem_map] at hmem
  obtain ⟨y, hy, hxy⟩ := hmem
  exact ⟨y, hy, hxy⟩

theorem merged_elem_facts {E : PyStr} {K : List PyStr}
    (hK : ∀ k ∈ K, '\n' ∉ pyStrip k) {x : PyStr}
    (hx : x ∈ sortDedup (parseLines E ++ newKeysList K)) :
    pyStrip x = x ∧ x ≠ [] ∧ '\n' ∉ x := by
  rw [mem_sortDedup, List.mem_append] at hx
  rcases hx with hx | hx
  · obtain ⟨h1, h2, _, h4⟩ := mem_parseLines hx
    exact ⟨h1, h2, h4⟩
  · obtain ⟨h1, h2⟩ := mem_newKeysList hx
    obtain ⟨k, hk, hkx⟩ := mem_newKeysList_strip hx
    exact ⟨h1, h2, hkx ▸ hK k hk⟩

/-- Re-reading a deployed file parses back exactly the merged key set with
its comment members (possible only via comment-looking "keys") dropped. -/
theorem parseLines_deployContent (E : PyStr) (K : List PyStr)
    (hK : ∀ k ∈ K, '\n' ∉ pyStrip k) :
    parseLines (deployContent E K) =
      (sortDedup (parseLines E ++ newKeysList K)).filter fun l => !startsWithHash l := by
  unfold deployContent
  cases hM : sortDedup (parseLines E ++ newKeysList K) with
  | nil =>
    show parseLines ['\n'] = List.filter _ []
    decide
  | cons m ms =>
    have hMne : m :: ms ≠ [] := by simp
    have hfacts : ∀ x ∈ m :: ms, pyStrip x = x ∧ x ≠ [] ∧ '\n' ∉ x := by
      intro x hxmem
      exact merged_elem_facts hK (hM ▸ hxmem)
    have hnl : ∀ x ∈ m :: ms, '\n' ∉ x := fun x hxm => (hfacts x hxm).2.2
    have hsplit : splitNl (joinNl (m :: ms) ++ ['\n'])
        = (m :: ms) ++ [[]] := by
      rw [show joinNl (m :: ms) ++ ['\n'] = joinNl (m :: ms) ++ '\n' :: [] from rfl,
        splitNl_append, splitNl_joinNl hnl hMne]
      rfl
    unfold parseLines
    rw [hsplit, List.map_append, List.filter_append]
    have hmap : (m :: ms).map pyStrip = m :: ms := by
      conv_rhs => rw [← List.map_id (m :: ms)]
      apply List.map_congr_left
      intro x hxm
      exact (hfacts x hxm).1
    rw [hmap]
    have htail : ([([] : PyStr)].map pyStrip).filter
        (fun l => !l.isEmpty && !startsWithHash l) = [] := by decide
    rw [htail, List.append_nil]
    apply List.filter_congr
    intro x hxm
    have hne := (hfacts x hxm).2.1
    have : x.isEmpty = false := by
      cases x with
      | nil => exact absurd rfl hne
      | cons a as => rfl
    rw [this]
    simp

/-- Claim C1 (amended): provided every deployed key is a single line
(its stripped form contains no newline), deploying the same key list
twice produces byte-identical `authorized_keys` content: the content
written by `deploy_authorized_keys` is a fixed point of a second deploy
of the same keys. -/
theorem deploy_idempotent (E : PyStr) (K : List PyStr)
    (hK : ∀ k ∈ K, '\n' ∉ pyStrip k) :
    deployContent (deployContent E K) K = deployContent E K := by
  have hparse := parseLines_deployContent E K hK
  show joinNl (sortDedup (parseLines (deployContent E K) ++ newKeysList K)) ++ ['\n']
      = deployContent E K
  rw [hparse]
  have hcongr :
      sortDedup ((sortDedup (parseLines E ++ newKeysList K)).filter
          (fun l => !startsWithHash l) ++ newKeysList K)
        = sortDedup (parseLines E ++ newKeysList K) := by
    apply sortDedup_congr
    intro a
    rw [List.mem_append, List.mem_filter, mem_sortDedup, List.mem_append]
    constructor
    · intro h
      rcases h with ⟨h1, _⟩ | h1
      · exact h1
      · exact Or.inr h1
    · intro h
      rcases h with h1 | h1
      · obtain ⟨_, _, hhash, _⟩ := mem_parseLines h1
        exact Or.inl ⟨Or.inl h1, by rw [hhash]; rfl⟩
      · exact Or.inr h1
  rw [hcongr]
  rfl

/-- Claim C1, as literally stated over every key list, is false: a key
whose text contains an interior newline breaks idempotence. Deploying
the single key `"a\nb"` to an empty file yields `"a\nb\n"`; the second
deploy re-reads that as two lines and writes `"a\na\nb\nb\n"`. -/
theorem deploy_twice_ne_deploy_once :
    deployContent (deployContent [] [['a', '\n', 'b']]) [['a', '\n', 'b']]
      ≠ deployContent [] [['a', '\n', 'b']] := by decide

/-- Witness for `deploy_idempotent` at a concrete input. -/
theorem deploy_idempotent_witness :
    deployContent
        (deployContent ("# note\nssh-rsa OLD r@h\n".data) ["ssh-ed25519 AAA a@b".data])
        ["ssh-ed25519 AAA a@b".data]
      = deployContent ("# note\nssh-rsa OLD r@h\n".data) ["ssh-ed25519 AAA a@b".data] :=
  deploy_idempotent _ _ (by decide)

/-- Claim C2: key deployment never shrinks the authorized key set — every
non-blank, non-comment (trimmed) line of the existing content is still a
line of the rewritten `authorized_keys` content, for every deployed key
list. -/
theorem deploy_never_shrinks (E : PyStr) (K : List PyStr) (x : PyStr)
    (hx : x ∈ parseLines E) : x ∈ splitNl (deployContent E K) := by
  obtain ⟨_, _, _, hnl⟩ := mem_parseLines hx
  have hxM : x ∈ sortDedup (parseLines E ++ newKeysList K) :=
    (mem_sortDedup _ _).2 (List.mem_append_left _ hx)
  show x ∈ splitNl (joinNl (sortDedup (parseLines E ++ newKeysList K)) ++ '\n' :: [])
  rw [splitNl_append]
  exact List.mem_append_left _ (mem_splitNl_joinNl hxM hnl)

/-- Witness for `deploy_never_shrinks`: an existing key `A` survives the
deployment of a different key list `{B}`. -/
theorem deploy_never_shrinks_witness :
    ("ssh-rsa OLD r@h".data) ∈
      splitNl (deployContent ("ssh-rsa OLD r@h\n# note\n".data) ["ssh-ed25519 NEW a@b".data]) :=
  deploy_never_shrinks _ _ _ (by decide)

/-- Claim C9 (amended): provided every deployed key is a single
non-comment line and the merged key set is nonempty, the rewritten file
is exactly the sorted merged key list followed by the trailing-newline
empty fragment: dropping that fragment, its lines are precisely the
deduplicated sorted union of the kept existing lines and the trimmed
non-blank new keys, each appearing exactly once, with no blank line and
no comment line. -/
theorem deploy_rewrites_exactly (E : PyStr) (K : List PyStr)
    (hK : ∀ k ∈ K, '\n' ∉ pyStrip k ∧ startsWithHash (pyStrip k) = false)
    (hne : parseLines E ++ newKeysList K ≠ []) :
    (splitNl (deployContent E K)).dropLast = sortDedup (parseLines E ++ newKeysList K)
    ∧ (sortDedup (parseLines E ++ newKeysList K)).Nodup
    ∧ ∀ x ∈ sortDedup (parseLines E ++ newKeysList K),
        x ≠ [] ∧ startsWithHash x = false := by
  have hKnl : ∀ k ∈ K, '\n' ∉ pyStrip k := fun k hk => (hK k hk).1
  have hfacts : ∀ x ∈ sortDedup (parseLines E ++ newKeysList K),
      x ≠ [] ∧ startsWithHash x = false := by
    intro x hxm
    obtain ⟨_, h2, _⟩ := merged_elem_facts hKnl hxm
    refine ⟨h2, ?_⟩
    have hxm' := hxm
    rw [mem_sortDedup, List.mem_append] at hxm'
    rcases hxm' with hx | hx
    · exact (mem_parseLines hx).2.2.1
    · obtain ⟨k, hk, hkx⟩ := mem_newKeysList_strip hx
      exact hkx ▸ (hK k hk).2
  obtain ⟨a, ha⟩ := List.exists_mem_of_ne_nil _ hne
  have haM : a ∈ sortDedup (parseLines E ++ newKeysList K) := (mem_sortDedup _ _).2 ha
  have hMne : sortDedup (parseLines E ++ newKeysList K) ≠ [] :=
    List.ne_nil_of_mem haM
  have hnl : ∀ x ∈ sortDedup (parseLines E ++ newKeysList K), '\n' ∉ x :=
    fun x hxm => (merged_elem_facts hKnl hxm).2.2
  refine ⟨?_, nodup_sortDedup _, hfacts⟩
  show (splitNl (joinNl (sortDedup (parseLines E ++ newKeysList K)) ++ '\n' :: [])).dropLast = _
  rw [splitNl_append, splitNl_joinNl hnl hMne]
  show (sortDedup (parseLines E ++ newKeysList K) ++ [[]]).dropLast = _
  rw [List.dropLast_concat]

/-- Claim C9, as literally stated, is false: a deployed "key" whose
trimmed text starts with `#` is written to the file, so the rewritten
file can contain a comment line. -/
theorem deploy_writes_comment_key :
    ∃ x ∈ splitNl (deployContent [] [['#', 'c']]), startsWithHash (pyStrip x) = true := by
  decide

/-- Claim C3: when a pinned fingerprint differs from the observed
SHA-256 fingerprint of the remote host key, `connect` fails, the error
message carries both the expected and the observed fingerprint, the
transport is closed (`self.client = None`), and any subsequent command
execution raises `RuntimeError` — no further operations are possible. -/
theorem connect_mismatch_aborts (h : SSHHelper) (env : NetEnv) (pin : String)
    (hpin : h.known_host_fingerprint = some pin)
    (hne : env.remoteFingerprint ≠ pin)
    (hok : env.connectOutcome = .ok)
    (hkey : h.private_key_str = none ∨ env.keyLoads = true) :
    (h.connect env).2.1.1 = false
    ∧ (h.connect env).2.1.2 = some ("Host key verification failed! Expected: " ++ pin
        ++ ", Got: " ++ env.remoteFingerprint)
    ∧ (h.connect env).1.client = .noClient
    ∧ ∀ cmd t chan, (h.connect env).1.execute_command cmd t chan
        = .error (.runtimeError "Not connected. Call connect() first.") := by
  have hcondP : (h.private_key_str.isSome && !env.keyLoads) = false := by
    rcases hkey with hk | hk
    · rw [hk]
      rfl
    · rw [hk]
      simp
  have hmismatch : ¬ (some env.remoteFingerprint = some pin) := by
    intro hcontra
    exact hne (Option.some.injEq _ _ ▸ hcontra)
  have hclosed : (h.connect env).1.client = .noClient := by
    simp only [SSHHelper.connect, hok, hpin, SSHHelper.get_host_fingerprint,
      SSHHelper.close, hcondP]
    simp [hmismatch]
  refine ⟨?_, ?_, hclosed, ?_⟩
  · simp only [SSHHelper.connect, hok, hpin, SSHHelper.get_host_fingerprint,
      SSHHelper.close, hcondP]
    simp [hmismatch]
  · simp only [SSHHelper.connect, hok, hpin, SSHHelper.get_host_fingerprint,
      SSHHelper.close, hcondP]
    simp [hmismatch]
  · intro cmd t chan
    simp [SSHHelper.execute_command, hclosed]

/-- Witness for `connect_mismatch_aborts` at a concrete helper and
environment. -/
theorem connect_mismatch_aborts_witness :
    (pinnedHelper.connect mismatchEnv).2.1.1 = false
    ∧ (pinnedHelper.connect mismatchEnv).2.1.2
        = some ("Host key verification failed! Expected: " ++ "aabb" ++ ", Got: " ++ "ccdd")
    ∧ (pinnedHelper.connect mismatchEnv).1.client = .noClient
    ∧ (pinnedHelper.connect mismatchEnv).1.execute_command "ls" 5 (.completes 0 "" "")
        = .error (.runtimeError "Not connected. Call connect() first.") := by
  obtain ⟨h1, h2, h3, h4⟩ := connect_mismatch_aborts pinnedHelper mismatchEnv
    "aabb" rfl (by decide) rfl (Or.inl rfl)
  exact ⟨h1, h2, h3, h4 "ls" 5 (.completes 0 "" "")⟩

/-- Claim C4 as stated is false of the code: on a timed-out command the
call does not return `(255, "", "Command timed out")` — the channel
read's timeout exception propagates instead, at this concrete connected
session and command. -/
theorem execute_command_timeout_not_synthesized :
    connectedHelper.execute_command "sleep 5" 1 .timesOut = .error .socketTimeout
    ∧ connectedHelper.execute_command "sleep 5" 1 .timesOut
      ≠ .ok (255, "", "Command timed out") := by
  refine ⟨rfl, ?_⟩
  simp [SSHHelper.execute_command, connectedHelper]

/-- Claim C4 (amended): `execute_command` contains no timeout-synthesis
branch. On a session whose client is set, a command that outruns the
channel timeout makes the call raise (`socket.timeout` propagates), and
a command that completes returns exactly the channel's exit status and
decoded streams — the triple `(255, "", "Command timed out")` is never
synthesized. -/
theorem execute_command_passthrough (h : SSHHelper) (cmd : String) (t : Nat)
    (hc : h.client ≠ .noClient) :
    h.execute_command cmd t .timesOut = .error .socketTimeout
    ∧ ∀ code out err, h.execute_command cmd t (.completes code out err)
        = .ok (code, out, err) := by
  constructor
  · simp [SSHHelper.execute_command, hc]
  · intro code out err
    simp [SSHHelper.execute_command, hc]

/-- Witness for `execute_command_passthrough` at a concrete session. -/
theorem execute_command_passthrough_witness :
    connectedHelper.execute_command "true" 10 .timesOut = .error .socketTimeout
    ∧ connectedHelper.execute_command "true" 10 (.completes 3 "a" "b")
      = .ok (3, "a", "b") := by
  obtain ⟨h1, h2⟩ := execute_command_passthrough connectedHelper "true" 10 (by decide)
  exact ⟨h1, h2 3 "a" "b"⟩

/-- Witness for `deploy_rewrites_exactly` at a concrete input. -/
theorem deploy_rewrites_exactly_witness :
    (splitNl (deployContent ("# old\nssh-rsa K1 u@h\n".data) ["ssh-ed25519 K2 v@h".data])).dropLast
        = sortDedup (parseLines ("# old\nssh-rsa K1 u@h\n".data)
            ++ newKeysList ["ssh-ed25519 K2 v@h".data])
    ∧ (sortDedup (parseLines ("# old\nssh-rsa K1 u@h\n".data)
        ++ newKeysList ["ssh-ed25519 K2 v@h".data])).Nodup
    ∧ ∀ x ∈ sortDedup (parseLines ("# old\nssh-rsa K1 u@h\n".data)
        ++ newKeysList ["ssh-ed25519 K2 v@h".data]),
        x ≠ [] ∧ startsWithHash x = false :=
  deploy_rewrites_exactly _ _ (by decide) (by decide)

/-! ### Plumbing lemmas for the task layer -/

theorem lookup_map_set {β : Type} (l : List (String × β)) (id : String) (r : β)
    (h : (l.lookup id).isSome) :
    (l.map fun p => if p.1 = id then (id, r) else p).lookup id = some r := by
  induction l with
  | nil => simp [List.lookup] at h
  | cons p t ih =>
    cases p with
    | mk k v =>
      by_cases hp : k = id
      · subst hp
        have h1 : List.map (fun p : String × β => if p.1 = k then (k, r) else p) ((k, v) :: t)
            = (k, r) :: List.map (fun p : String × β => if p.1 = k then (k, r) else p) t := by
          rw [List.map_cons]
          congr 1
          simp
        rw [h1]
        simp [List.lookup]
      · have hbeq : (id == k) = false := beq_eq_false_iff_ne.mpr (Ne.symm hp)
        have h1 : List.map (fun p : String × β => if p.1 = id then (id, r) else p) ((k, v) :: t)
            = (k, v) :: List.map (fun p : String × β => if p.1 = id then (id, r) else p) t := by
          rw [List.map_cons]
          congr 1
          simp [hp]
        rw [h1]
        have h2 : List.lookup id ((k, v) :: t) = List.lookup id t := by
          simp [List.lookup, hbeq]
        rw [h2] at h
        have h3 : List.lookup id ((k, v)
            :: List.map (fun p : String × β => if p.1 = id then (id, r) else p) t)
            = List.lookup id (List.map (fun p : String × β => if p.1 = id then (id, r) else p) t) := by
          simp [List.lookup, hbeq]
        rw [h3]
        exact ih h

theorem getTaskRun_setTaskRun (db : DB) (id : String) (r : TaskRunRec)
    (h : (db.getTaskRun id).isSome) :
    (db.setTaskRun id r).getTaskRun id = some r :=
  lookup_map_set db.taskRuns id r h

theorem getPlatform_setTaskRun (db : DB) (id : String) (r : TaskRunRec) (pid : String) :
    (db.setTaskRun id r).getPlatform pid = db.getPlatform pid := rfl

theorem getSSHKey_setTaskRun (db : DB) (id : String) (r : TaskRunRec) (k : String) :
    (db.setTaskRun id r).getSSHKey k = db.getSSHKey k := rfl

theorem getTaskRun_setPlatform (db : DB) (id : String) (r : PlatformRec) (tid : String) :
    (db.setPlatform id r).getTaskRun tid = db.getTaskRun tid := rfl

theorem queryKeys_setTaskRun (db : DB) (id : String) (r : TaskRunRec)
    (kids : Option (List String)) :
    (db.setTaskRun id r).queryKeys kids = db.queryKeys kids := rfl

theorem resolveCredentials_setTaskRun (db : DB) (id : String) (r : TaskRunRec)
    (p : PlatformRec) (d : String → String) :
    resolveCredentials (db.setTaskRun id r) p d = resolveCredentials db p d := rfl

theorem foldl_publish_db (lst : List String) (ty : String) (c : TaskCtx) :
    (lst.foldl (fun c1 l => publish c1 ty l) c).db = c.db := by
  induction lst generalizing c with
  | nil => rfl
  | cons x xs ih => simp only [List.foldl]; rw [ih]; rfl

theorem foldl_publish_s3 (lst : List String) (ty : String) (c : TaskCtx) :
    (lst.foldl (fun c1 l => publish c1 ty l) c).s3 = c.s3 := by
  induction lst generalizing c with
  | nil => rfl
  | cons x xs ih => simp only [List.foldl]; rw [ih]; rfl

theorem foldl_publish_net (lst : List String) (ty : String) (c : TaskCtx) :
    (lst.foldl (fun c1 l => publish c1 ty l) c).net = c.net := by
  induction lst generalizing c with
  | nil => rfl
  | cons x xs ih => simp only [List.foldl]; rw [ih]; rfl

theorem connect_success_client (h : SSHHelper) (env : NetEnv)
    (hs : (h.connect env).2.1.1 = true) : (h.connect env).1.client = .connected := by
  cases hc : (h.private_key_str.isSome && !env.keyLoads) with
  | true =>
    simp only [SSHHelper.connect, hc] at hs
    simp at hs
  | false =>
    cases ho : env.connectOutcome with
    | ok =>
      cases hp : h.known_host_fingerprint with
      | none =>
        simp [SSHHelper.connect, SSHHelper.get_host_fingerprint, hc, ho, hp]
      | some pin =>
        by_cases hm : env.remoteFingerprint = pin
        · simp [SSHHelper.connect, SSHHelper.get_host_fingerprint, hc, ho, hp, hm]
        · simp only [SSHHelper.connect, SSHHelper.get_host_fingerprint, hc, ho, hp] at hs
          simp [hm] at hs
    | authFailure m =>
      simp only [SSHHelper.connect, hc, ho] at hs
      simp at hs
    | sshFailure m =>
      simp only [SSHHelper.connect, hc, ho] at hs
      simp at hs
    | otherFailure m =>
      simp only [SSHHelper.connect, hc, ho] at hs
      simp at hs

theorem publish_db (c : TaskCtx) (ty p : String) : (publish c ty p).db = c.db := rfl

theorem publish_s3 (c : TaskCtx) (ty p : String) : (publish c ty p).s3 = c.s3 := rfl

theorem publish_net (c : TaskCtx) (ty p : String) : (publish c ty p).net = c.net := rfl

theorem publish_events (c : TaskCtx) (ty p : String) :
    (publish c ty p).events = c.events ++ [(ty, p)] := rfl

theorem upload_db (c : TaskCtx) (k v : String) : (upload c k v).db = c.db := rfl

theorem upload_net (c : TaskCtx) (k v : String) : (upload c k v).net = c.net := rfl

theorem upload_s3 (c : TaskCtx) (k v : String) :
    (upload c k v).s3 = c.s3 ++ [(k, v)] := rfl

theorem db_if_upload (b : Prop) [Decidable b] (c : TaskCtx) (k v : String) :
    (if b then upload c k v else c).db = c.db := by
  by_cases hb : b <;> simp [hb, upload]

theorem s3_if_upload (b : Prop) [Decidable b] (c : TaskCtx) (k v : String) :
    (if b then upload c k v else c).s3 = c.s3 ++ (if b then [(k, v)] else []) := by
  by_cases hb : b <;> simp [hb, upload]

theorem taskExceptBlock_spec (label tid : String) (c : TaskCtx) (msg : String)
    (tr : TaskRunRec) (h : c.db.getTaskRun tid = some tr) :
    ((taskExceptBlock label tid c msg).1.db.getTaskRun tid)
        = some { tr with status := .failed, finished := true, error_message := some msg }
    ∧ (taskExceptBlock label tid c msg).1.events = c.events ++ [("error", label ++ msg)]
    ∧ (taskExceptBlock label tid c msg).2 = some msg := by
  unfold taskExceptBlock
  rw [h]
  refine ⟨?_, rfl, rfl⟩
  exact getTaskRun_setTaskRun _ _ _ (by rw [h]; rfl)

theorem run_command_happy (env : TaskEnv) (c0 : TaskCtx)
    (tid pid cmd : String) (tmo : Nat) (tr : TaskRunRec) (platform : PlatformRec)
    (exit_code : Int) (out err : String)
    (htr : c0.db.getTaskRun tid = some tr)
    (hpl : c0.db.getPlatform pid = some platform)
    (hconn : ((taskHelper platform
        (resolveCredentials c0.db platform env.decrypt)).connect env.net).2.1.1 = true)
    (hchan : env.chan = .completes exit_code out err) :
    (run_command_task env c0 tid pid cmd tmo).1.db.getTaskRun tid
        = some (runCommandFinalRec tr exit_code out err tid env.ts)
    ∧ (run_command_task env c0 tid pid cmd tmo).1.s3
        = c0.s3 ++ (if pyLen out + pyLen err > 10000 then
            [("tasks/" ++ tid ++ "/output_" ++ env.ts ++ ".txt",
              combinedOutput out err exit_code)]
          else [])
    ∧ (run_command_task env c0 tid pid cmd tmo).2 = none := by
  have hclient := connect_success_client _ env.net hconn
  have hne : ((taskHelper platform
      (resolveCredentials c0.db platform env.decrypt)).connect env.net).1.client
      ≠ .noClient := by
    rw [hclient]
    simp
  have hexec : ((taskHelper platform
      (resolveCredentials c0.db platform env.decrypt)).connect env.net).1.execute_command
        cmd tmo env.chan = .ok (exit_code, out, err) := by
    rw [hchan]
    simp [SSHHelper.execute_command, hne]
  refine ⟨?_, ?_, ?_⟩
  · simp only [run_command_task, htr, getPlatform_setTaskRun, hpl,
      resolveCredentials_setTaskRun, hconn, hexec, Bool.true_eq_false, if_false,
      publish_db, foldl_publish_db, db_if_upload]
    rw [getTaskRun_setTaskRun]
    · rfl
    · rw [getTaskRun_setTaskRun c0.db tid _ (by rw [htr]; rfl)]
      rfl
  · simp only [run_command_task, htr, getPlatform_setTaskRun, hpl,
      resolveCredentials_setTaskRun, hconn, hexec, Bool.true_eq_false, if_false,
      publish_db, foldl_publish_db, db_if_upload, upload_db,
      publish_s3, foldl_publish_s3, s3_if_upload]
  · simp only [run_command_task, htr, getPlatform_setTaskRun, hpl,
      resolveCredentials_setTaskRun, hconn, hexec, Bool.true_eq_false, if_false,
      publish_db, foldl_publish_db, db_if_upload, upload_db]

/-- Claim C6: on every run-command execution that reaches the remote
command, the persisted terminal status is SUCCESS iff the command's
exit code is zero (FAILED otherwise — the status reflects the command's
exit code), and the exit code is stored in the task metadata. -/
theorem run_command_status_iff_exit (env : TaskEnv) (c0 : TaskCtx)
    (tid pid cmd : String) (tmo : Nat) (tr : TaskRunRec) (platform : PlatformRec)
    (exit_code : Int) (out err : String)
    (htr : c0.db.getTaskRun tid = some tr)
    (hpl : c0.db.getPlatform pid = some platform)
    (hconn : ((taskHelper platform
        (resolveCredentials c0.db platform env.decrypt)).connect env.net).2.1.1 = true)
    (hchan : env.chan = .completes exit_code out err) :
    (((run_command_task env c0 tid pid cmd tmo).1.db.getTaskRun tid).map
        TaskRunRec.status = some TaskStatusEnum.success ↔ exit_code = 0)
    ∧ (((run_command_task env c0 tid pid cmd tmo).1.db.getTaskRun tid).map
        TaskRunRec.status = some TaskStatusEnum.failed ↔ exit_code ≠ 0)
    ∧ ((run_command_task env c0 tid pid cmd tmo).1.db.getTaskRun tid).map
        TaskRunRec.task_metadata_exit_code = some (some exit_code) := by
  obtain ⟨h1, _, _⟩ := run_command_happy env c0 tid pid cmd tmo tr platform
    exit_code out err htr hpl hconn hchan
  rw [h1]
  by_cases hz : exit_code = 0
  · refine ⟨?_, ?_, rfl⟩
    · simp [runCommandFinalRec, hz]
    · simp [runCommandFinalRec, hz]
  · refine ⟨?_, ?_, rfl⟩
    · simp [runCommandFinalRec, hz]
    · simp [runCommandFinalRec, hz]

/-- Witness for `run_command_status_iff_exit` at a concrete run whose
command exits 3. -/
theorem run_command_status_iff_exit_witness :
    (((run_command_task (happyEnv (.completes 3 "" "")) (emptyCtx dbRun)
        "t1" "p1" "exit 3" 10).1.db.getTaskRun "t1").map
        TaskRunRec.status = some TaskStatusEnum.success ↔ (3 : Int) = 0)
    ∧ (((run_command_task (happyEnv (.completes 3 "" "")) (emptyCtx dbRun)
        "t1" "p1" "exit 3" 10).1.db.getTaskRun "t1").map
        TaskRunRec.status = some TaskStatusEnum.failed ↔ (3 : Int) ≠ 0)
    ∧ ((run_command_task (happyEnv (.completes 3 "" "")) (emptyCtx dbRun)
        "t1" "p1" "exit 3" 10).1.db.getTaskRun "t1").map
        TaskRunRec.task_metadata_exit_code = some (some 3) :=
  run_command_status_iff_exit (happyEnv (.completes 3 "" "")) (emptyCtx dbRun)
    "t1" "p1" "exit 3" 10 pendingTask pwPlatform 3 "" ""
    rfl rfl (by decide) rfl

/-! ### Lemmas about the truncation markers -/

theorem pySlice_of_le (s : String) (n : Nat) (h : pyLen s ≤ n) : pySlice s n = s := by
  unfold pySlice
  rw [List.take_of_length_le h]

theorem inlineCopy_eq (s : String) :
    inlineCopy s = if pyLen s ≤ 5000 then s
      else pySlice s 5000 ++ "... (truncated)" := by
  unfold inlineCopy
  by_cases h : pyLen s ≤ 5000
  · rw [if_pos h, if_pos h, pySlice_of_le s 5000 h]
  · rw [if_neg h, if_neg h]

theorem beginsWith_specMarker_a (rest : PyStr) :
    beginsWith specMarker ('a' :: rest) = false := by
  show (('.' == 'a') && beginsWith "..(truncated)".data rest) = false
  simp

theorem containsSub_specMarker_replicate (n : Nat) :
    containsSub specMarker (List.replicate n 'a' ++ codeMarker) = false := by
  induction n with
  | zero =>
    show containsSub specMarker codeMarker = false
    decide
  | succ n ih =>
    rw [List.replicate_succ, List.cons_append]
    show (beginsWith specMarker ('a' :: (List.replicate n 'a' ++ codeMarker))
        || containsSub specMarker (List.replicate n 'a' ++ codeMarker)) = false
    rw [beginsWith_specMarker_a, ih]
    rfl

theorem containsSub_codeMarker_replicate (n : Nat) :
    containsSub codeMarker (List.replicate n 'a' ++ codeMarker) = true := by
  induction n with
  | zero =>
    show containsSub codeMarker codeMarker = true
    decide
  | succ n ih =>
    rw [List.replicate_succ, List.cons_append]
    show (beginsWith codeMarker ('a' :: (List.replicate n 'a' ++ codeMarker))
        || containsSub codeMarker (List.replicate n 'a' ++ codeMarker)) = true
    rw [ih, Bool.or_true]

theorem pyLen_bigOut : pyLen bigOut = 10001 := by
  show (List.replicate 10001 'a').length = 10001
  rw [List.length_replicate]

theorem inlineCopy_bigOut : (inlineCopy bigOut).data = List.replicate 5000 'a' ++ codeMarker := by
  unfold inlineCopy
  rw [if_neg (by rw [pyLen_bigOut]; omega)]
  rw [String.data_append]
  have h1 : (pySlice bigOut 5000).data = List.replicate 5000 'a' := by
    show (List.replicate 10001 'a').take 5000 = _
    rw [List.take_replicate]
    norm_num
  rw [h1]
  rfl

/-- Claim C7, as stated, is false of the code in its quoted truncation
marker: for a 10001-character stdout (over the archival threshold) the
inline copy ends in `"... (truncated)"` — with a space — and the
claimed marker `"...(truncated)"` does not occur in it anywhere. -/
theorem inline_marker_spelling_differs :
    pyLen bigOut + pyLen "" > 10000
    ∧ containsSub specMarker (inlineCopy bigOut).data = false
    ∧ containsSub codeMarker (inlineCopy bigOut).data = true := by
  refine ⟨by rw [pyLen_bigOut]; norm_num [pyLen], ?_, ?_⟩
  · rw [inlineCopy_bigOut]
    exact containsSub_specMarker_replicate 5000
  · rw [inlineCopy_bigOut]
    exact containsSub_codeMarker_replicate 5000

/-- Claim C7 (amended): output policy of the run-command task. If the
combined stdout+stderr exceeds 10000 characters, the full combined
output is archived in the `=== STDOUT ===` / `=== STDERR ===` /
`=== EXIT CODE ===` format and the archival key is stored on the task
row; each inline copy is the stream itself when it is at most 5000
characters, and its first 5000 characters followed by the marker
`"... (truncated)"` (with a space) otherwise. If both streams are at
most 5000 characters, they are stored fully inline and no archival
location is set. -/
theorem run_command_output_policy (env : TaskEnv) (c0 : TaskCtx)
    (tid pid cmd : String) (tmo : Nat) (tr : TaskRunRec) (platform : PlatformRec)
    (exit_code : Int) (out err : String)
    (htr : c0.db.getTaskRun tid = some tr)
    (hpl : c0.db.getPlatform pid = some platform)
    (hconn : ((taskHelper platform
        (resolveCredentials c0.db platform env.decrypt)).connect env.net).2.1.1 = true)
    (hchan : env.chan = .completes exit_code out err) :
    (pyLen out + pyLen err > 10000 →
      (run_command_task env c0 tid pid cmd tmo).1.s3
        = c0.s3 ++ [("tasks/" ++ tid ++ "/output_" ++ env.ts ++ ".txt",
            combinedOutput out err exit_code)]
      ∧ ((run_command_task env c0 tid pid cmd tmo).1.db.getTaskRun tid).map
          TaskRunRec.result_location
          = some (some ("tasks/" ++ tid ++ "/output_" ++ env.ts ++ ".txt")))
    ∧ ((run_command_task env c0 tid pid cmd tmo).1.db.getTaskRun tid).map
        TaskRunRec.stdout
        = some (some (if pyLen out ≤ 5000 then out
            else pySlice out 5000 ++ "... (truncated)"))
    ∧ ((run_command_task env c0 tid pid cmd tmo).1.db.getTaskRun tid).map
        TaskRunRec.stderr
        = some (some (if pyLen err ≤ 5000 then err
            else pySlice err 5000 ++ "... (truncated)"))
    ∧ (pyLen out ≤ 5000 → pyLen err ≤ 5000 →
      (run_command_task env c0 tid pid cmd tmo).1.s3 = c0.s3
      ∧ ((run_command_task env c0 tid pid cmd tmo).1.db.getTaskRun tid).map
          TaskRunRec.result_location = some none) := by
  obtain ⟨h1, h2, _⟩ := run_command_happy env c0 tid pid cmd tmo tr platform
    exit_code out err htr hpl hconn hchan
  refine ⟨?_, ?_, ?_, ?_⟩
  · intro hbig
    constructor
    · rw [h2, if_pos hbig]
    · rw [h1]
      simp [runCommandFinalRec, hbig]
  · rw [h1]
    simp [runCommandFinalRec, inlineCopy_eq]
  · rw [h1]
    simp [runCommandFinalRec, inlineCopy_eq]
  · intro hout herr
    have hnotbig : ¬ (pyLen out + pyLen err > 10000) := by omega
    constructor
    · rw [h2, if_neg hnotbig]
      simp
    · rw [h1]
      simp [runCommandFinalRec, hnotbig]

/-- Witness for `run_command_output_policy` at a run producing a
10001-character stdout. -/
theorem run_command_output_policy_witness :
    (run_command_task (happyEnv (.completes 0 bigOut "")) (emptyCtx dbRun)
        "t1" "p1" "c" 60).1.s3
      = (emptyCtx dbRun).s3 ++ [("tasks/" ++ "t1" ++ "/output_"
          ++ (happyEnv (.completes 0 bigOut "")).ts ++ ".txt",
          combinedOutput bigOut "" 0)]
    ∧ ((run_command_task (happyEnv (.completes 0 bigOut "")) (emptyCtx dbRun)
        "t1" "p1" "c" 60).1.db.getTaskRun "t1").map TaskRunRec.stdout
      = some (some (if pyLen bigOut ≤ 5000 then bigOut
          else pySlice bigOut 5000 ++ "... (truncated)")) := by
  obtain ⟨ha, hb, _, _⟩ := run_command_output_policy (happyEnv (.completes 0 bigOut ""))
    (emptyCtx dbRun) "t1" "p1" "c" 60 pendingTask pwPlatform 0 bigOut ""
    rfl rfl (by decide) rfl
  exact ⟨(ha (by rw [pyLen_bigOut]; norm_num [pyLen])).1, hb⟩

/-- Claim C10: the lossy band of the run-command output policy — for a
run whose single stream exceeds 5000 characters while the combined
output is at most 10000 characters, the inline copy of the long stream
is truncated with the `"... (truncated)"` marker, yet nothing is
archived and result_location stays null, so the truncated tail is
retained nowhere. -/
theorem run_command_lossy_band (env : TaskEnv) (c0 : TaskCtx)
    (tid pid cmd : String) (tmo : Nat) (tr : TaskRunRec) (platform : PlatformRec)
    (exit_code : Int) (out err : String)
    (htr : c0.db.getTaskRun tid = some tr)
    (hpl : c0.db.getPlatform pid = some platform)
    (hconn : ((taskHelper platform
        (resolveCredentials c0.db platform env.decrypt)).connect env.net).2.1.1 = true)
    (hchan : env.chan = .completes exit_code out err)
    (_hband : 5000 < pyLen out ∨ 5000 < pyLen err)
    (hsum : pyLen out + pyLen err ≤ 10000) :
    ((run_command_task env c0 tid pid cmd tmo).1.db.getTaskRun tid).map
        TaskRunRec.result_location = some none
    ∧ (run_command_task env c0 tid pid cmd tmo).1.s3 = c0.s3
    ∧ (5000 < pyLen out →
        ((run_command_task env c0 tid pid cmd tmo).1.db.getTaskRun tid).map
          TaskRunRec.stdout = some (some (pySlice out 5000 ++ "... (truncated)")))
    ∧ (5000 < pyLen err →
        ((run_command_task env c0 tid pid cmd tmo).1.db.getTaskRun tid).map
          TaskRunRec.stderr = some (some (pySlice err 5000 ++ "... (truncated)"))) := by
  obtain ⟨h1, h2, _⟩ := run_command_happy env c0 tid pid cmd tmo tr platform
    exit_code out err htr hpl hconn hchan
  have hnotbig : ¬ (pyLen out + pyLen err > 10000) := by omega
  refine ⟨?_, ?_, ?_, ?_⟩
  · rw [h1]
    simp [runCommandFinalRec, hnotbig]
  · rw [h2, if_neg hnotbig]
    simp
  · intro hout
    rw [h1]
    simp [runCommandFinalRec, inlineCopy_eq, Nat.not_le_of_lt hout]
  · intro herr
    rw [h1]
    simp [runCommandFinalRec, inlineCopy_eq, Nat.not_le_of_lt herr]

/-- Witness for `run_command_lossy_band` at a run with a
5001-character stdout and empty stderr. -/
theorem run_command_lossy_band_witness :
    ((run_command_task (happyEnv (.completes 0 midOut "")) (emptyCtx dbRun)
        "t1" "p1" "c" 60).1.db.getTaskRun "t1").map
        TaskRunRec.result_location = some none
    ∧ (run_command_task (happyEnv (.completes 0 midOut "")) (emptyCtx dbRun)
        "t1" "p1" "c" 60).1.s3 = (emptyCtx dbRun).s3
    ∧ ((run_command_task (happyEnv (.completes 0 midOut "")) (emptyCtx dbRun)
        "t1" "p1" "c" 60).1.db.getTaskRun "t1").map
        TaskRunRec.stdout = some (some (pySlice midOut 5000 ++ "... (truncated)")) := by
  have hmid : pyLen midOut = 5001 := by
    show (List.replicate 5001 'a').length = 5001
    rw [List.length_replicate]
  obtain ⟨h1, h2, h3, _⟩ := run_command_lossy_band (happyEnv (.completes 0 midOut ""))
    (emptyCtx dbRun) "t1" "p1" "c" 60 pendingTask pwPlatform 0 midOut ""
    rfl rfl (by decide) rfl
    (Or.inl (by rw [hmid]; omega)) (by rw [hmid]; simp [pyLen])
  exact ⟨h1, h2, h3 (by rw [hmid]; omega)⟩

/-! ### Failure-path lemmas -/

theorem taskExceptBlock_snd (label tid : String) (c : TaskCtx) (msg : String) :
    (taskExceptBlock label tid c msg).2 = some msg := rfl

theorem taskExceptBlock_net (label tid : String) (c : TaskCtx) (msg : String) :
    (taskExceptBlock label tid c msg).1.net = c.net := by
  unfold taskExceptBlock
  cases c.db.getTaskRun tid <;> rfl

theorem taskExceptBlock_case (label tid : String) (cB : TaskCtx) (msgB msg : String)
    (tr : TaskRunRec)
    (hdb : cB.db.getTaskRun tid = some tr)
    (hm : (taskExceptBlock label tid cB msgB).2 = some msg) :
    (taskExceptBlock label tid cB msgB).1.db.getTaskRun tid
        = some { tr with status := .failed, finished := true, error_message := some msg }
    ∧ ("error", label ++ msg) ∈ (taskExceptBlock label tid cB msgB).1.events := by
  have hmm : msgB = msg := by
    rw [taskExceptBlock_snd] at hm
    exact Option.some.inj hm
  subst hmm
  obtain ⟨h1, h2, _⟩ := taskExceptBlock_spec label tid cB msgB tr hdb
  refine ⟨h1, ?_⟩
  rw [h2]
  simp

theorem run_command_failure_persists (env : TaskEnv) (c0 : TaskCtx)
    (tid pid cmd : String) (tmo : Nat) (tr : TaskRunRec) (msg : String)
    (htr : c0.db.getTaskRun tid = some tr)
    (hfail : (run_command_task env c0 tid pid cmd tmo).2 = some msg) :
    (run_command_task env c0 tid pid cmd tmo).1.db.getTaskRun tid
        = some { tr with
            status := .failed, started := true, finished := true,
            error_message := some msg }
    ∧ ("error", "Command execution failed: " ++ msg)
        ∈ (run_command_task env c0 tid pid cmd tmo).1.events := by
  have hdbR : ∀ cB : TaskCtx, cB.db = c0.db.setTaskRun tid
      { tr with status := .running, started := true } →
      cB.db.getTaskRun tid = some { tr with status := .running, started := true } := by
    intro cB hc
    rw [hc]
    exact getTaskRun_setTaskRun c0.db tid _ (by rw [htr]; rfl)
  cases hpl : c0.db.getPlatform pid with
  | none =>
    simp only [run_command_task, htr, publish_db, getPlatform_setTaskRun, hpl] at hfail ⊢
    exact taskExceptBlock_case _ tid _ _ msg { tr with status := .running, started := true }
      (hdbR _ rfl) hfail
  | some platform =>
    cases hcf : ((taskHelper platform
        (resolveCredentials c0.db platform env.decrypt)).connect env.net).2.1.1 with
    | false =>
      simp only [run_command_task, htr, publish_db, getPlatform_setTaskRun, hpl,
        resolveCredentials_setTaskRun, hcf] at hfail ⊢
      simp only [eq_self_iff_true, if_true] at hfail ⊢
      exact taskExceptBlock_case _ tid _ _ msg { tr with status := .running, started := true }
        (hdbR _ rfl) hfail
    | true =>
      cases hex : ((taskHelper platform
          (resolveCredentials c0.db platform env.decrypt)).connect env.net).1.execute_command
          cmd tmo env.chan with
      | error e =>
        simp only [run_command_task, htr, publish_db, getPlatform_setTaskRun, hpl,
          resolveCredentials_setTaskRun, hcf, hex, Bool.true_eq_false, if_false] at hfail ⊢
        exact taskExceptBlock_case _ tid _ _ msg { tr with status := .running, started := true }
          (hdbR _ rfl) hfail
      | ok tri =>
        obtain ⟨code, out2, err2⟩ := tri
        simp only [run_command_task, htr, publish_db, getPlatform_setTaskRun, hpl,
          resolveCredentials_setTaskRun, hcf, hex, Bool.true_eq_false, if_false] at hfail
        simp at hfail

theorem deploy_failure_persists (env : TaskEnv) (c0 : TaskCtx)
    (tid pid : String) (kids : Option (List String)) (tr : TaskRunRec) (msg : String)
    (htr : c0.db.getTaskRun tid = some tr)
    (hfail : (deploy_keys_task env c0 tid pid kids).2 = some msg) :
    (deploy_keys_task env c0 tid pid kids).1.db.getTaskRun tid
        = some { tr with
            status := .failed, started := true, finished := true,
            error_message := some msg }
    ∧ ("error", "Deployment failed: " ++ msg)
        ∈ (deploy_keys_task env c0 tid pid kids).1.events := by
  have hdbR : ∀ cB : TaskCtx, cB.db.getTaskRun tid = some
      { tr with status := .running, started := true } →
      cB.db.getTaskRun tid = some { tr with status := .running, started := true } := fun _ h => h
  have hbase : (c0.db.setTaskRun tid
      { tr with status := .running, started := true }).getTaskRun tid
      = some { tr with status := .running, started := true } :=
    getTaskRun_setTaskRun c0.db tid _ (by rw [htr]; rfl)
  cases hpl : c0.db.getPlatform pid with
  | none =>
    simp only [deploy_keys_task, htr, publish_db, getPlatform_setTaskRun, hpl] at hfail ⊢
    exact taskExceptBlock_case _ tid _ _ msg { tr with status := .running, started := true }
      hbase hfail
  | some platform =>
    cases hke : (c0.db.queryKeys kids).isEmpty with
    | true =>
      simp only [deploy_keys_task, htr, publish_db, getPlatform_setTaskRun, hpl,
        resolveCredentials_setTaskRun, queryKeys_setTaskRun, hke, if_true] at hfail ⊢
      exact taskExceptBlock_case _ tid _ _ msg { tr with status := .running, started := true }
        hbase hfail
    | false =>
      cases hcf : ((taskHelper platform
          (resolveCredentials c0.db platform env.decrypt)).connect env.net).2.1.1 with
      | false =>
        simp only [deploy_keys_task, htr, publish_db, getPlatform_setTaskRun, hpl,
          resolveCredentials_setTaskRun, queryKeys_setTaskRun, hke, Bool.false_eq_true,
          if_false, hcf, eq_self_iff_true, if_true] at hfail ⊢
        exact taskExceptBlock_case _ tid _ _ msg { tr with status := .running, started := true }
          hbase hfail
      | true =>
        cases hdr : ((taskHelper platform
            (resolveCredentials c0.db platform env.decrypt)).connect
              env.net).1.deploy_authorized_keys
            ((c0.db.queryKeys kids).map SSHKeyRec.public_key) env.ensureDirOk
            env.remoteAuth env.writeOk with
        | mk resPair newRemote =>
          cases resPair with
          | mk dsucc dmsg =>
            cases hds : dsucc with
            | false =>
              cases hpf : platform.known_host_fingerprint with
              | some pin =>
                simp only [deploy_keys_task, htr, publish_db, getPlatform_setTaskRun, hpl,
                  resolveCredentials_setTaskRun, queryKeys_setTaskRun, hke,
                  Bool.false_eq_true, if_false, hcf, Bool.true_eq_false, hpf, hdr,
                  hds] at hfail ⊢
                simp only [eq_self_iff_true, if_true, reduceCtorEq, if_false,
                  Option.some.injEq, publish_db] at hfail ⊢
                exact taskExceptBlock_case _ tid _ _ msg
                  { tr with status := .running, started := true } hbase hfail
              | none =>
                cases hgh : ((taskHelper platform
                    (resolveCredentials c0.db platform env.decrypt)).connect
                      env.net).1.get_host_fingerprint env.net with
                | none =>
                  simp only [deploy_keys_task, htr, publish_db, getPlatform_setTaskRun, hpl,
                    resolveCredentials_setTaskRun, queryKeys_setTaskRun, hke,
                    Bool.false_eq_true, if_false, hcf, Bool.true_eq_false, hpf, hgh,
                    hdr, hds] at hfail ⊢
                  simp only [eq_self_iff_true, if_true, reduceCtorEq, if_false,
                    publish_db] at hfail ⊢
                  exact taskExceptBlock_case _ tid _ _ msg
                    { tr with status := .running, started := true } hbase hfail
                | some fp =>
                  simp only [deploy_keys_task, htr, publish_db, getPlatform_setTaskRun, hpl,
                    resolveCredentials_setTaskRun, queryKeys_setTaskRun, hke,
                    Bool.false_eq_true, if_false, hcf, Bool.true_eq_false, hpf, hgh,
                    hdr, hds] at hfail ⊢
                  simp only [eq_self_iff_true, if_true, reduceCtorEq, if_false,
                    publish_db] at hfail ⊢
                  refine taskExceptBlock_case _ tid _ _ msg
                    { tr with status := .running, started := true } ?_ hfail
                  simp only [publish_db, getTaskRun_setPlatform]
                  exact hbase
            | true =>
              cases hpf : platform.known_host_fingerprint with
              | some pin =>
                simp only [deploy_keys_task, htr, publish_db, getPlatform_setTaskRun, hpl,
                  resolveCredentials_setTaskRun, queryKeys_setTaskRun, hke,
                  Bool.false_eq_true, if_false, hcf, Bool.true_eq_false, hpf, hdr,
                  hds] at hfail
                simp at hfail
              | none =>
                cases hgh : ((taskHelper platform
                    (resolveCredentials c0.db platform env.decrypt)).connect
                      env.net).1.get_host_fingerprint env.net with
                | none =>
                  simp only [deploy_keys_task, htr, publish_db, getPlatform_setTaskRun, hpl,
                    resolveCredentials_setTaskRun, queryKeys_setTaskRun, hke,
                    Bool.false_eq_true, if_false, hcf, Bool.true_eq_false, hpf, hgh,
                    hdr, hds] at hfail
                  simp at hfail
                | some fp =>
                  simp only [deploy_keys_task, htr, publish_db, getPlatform_setTaskRun, hpl,
                    resolveCredentials_setTaskRun, queryKeys_setTaskRun, hke,
                    Bool.false_eq_true, if_false, hcf, Bool.true_eq_false, hpf, hgh,
                    hdr, hds] at hfail
                  simp at hfail

/-- Claim C8: every failure at any step of a deploy-keys or run-command
task whose task row exists yields a persisted FAILED status carrying
the captured error message and a published `error` stream event — the
re-raised exception's message is exactly what is persisted. -/
theorem task_failure_persists_and_streams :
    (∀ (env : TaskEnv) (c0 : TaskCtx) (tid pid cmd : String) (tmo : Nat)
      (tr : TaskRunRec) (msg : String),
      c0.db.getTaskRun tid = some tr →
      (run_command_task env c0 tid pid cmd tmo).2 = some msg →
      (run_command_task env c0 tid pid cmd tmo).1.db.getTaskRun tid
          = some { tr with
              status := .failed, started := true, finished := true,
              error_message := some msg }
      ∧ ("error", "Command execution failed: " ++ msg)
          ∈ (run_command_task env c0 tid pid cmd tmo).1.events)
    ∧ (∀ (env : TaskEnv) (c0 : TaskCtx) (tid pid : String)
      (kids : Option (List String)) (tr : TaskRunRec) (msg : String),
      c0.db.getTaskRun tid = some tr →
      (deploy_keys_task env c0 tid pid kids).2 = some msg →
      (deploy_keys_task env c0 tid pid kids).1.db.getTaskRun tid
          = some { tr with
              status := .failed, started := true, finished := true,
              error_message := some msg }
      ∧ ("error", "Deployment failed: " ++ msg)
          ∈ (deploy_keys_task env c0 tid pid kids).1.events) :=
  ⟨fun env c0 tid pid cmd tmo tr msg htr hfail =>
      run_command_failure_persists env c0 tid pid cmd tmo tr msg htr hfail,
    fun env c0 tid pid kids tr msg htr hfail =>
      deploy_failure_persists env c0 tid pid kids tr msg htr hfail⟩

/-- Witness for `task_failure_persists_and_streams` at a concrete run
whose connection fails. -/
theorem task_failure_persists_and_streams_witness :
    (run_command_task envAuthFail (emptyCtx dbKeyless) "t1" "p1" "ls" 60).1.db.getTaskRun "t1"
        = some { pendingTask with
            status := .failed, started := true, finished := true,
            error_message := some
              "SSH connection failed: Authentication failed: Authentication failed." }
    ∧ ("error", "Command execution failed: "
        ++ "SSH connection failed: Authentication failed: Authentication failed.")
        ∈ (run_command_task envAuthFail (emptyCtx dbKeyless) "t1" "p1" "ls" 60).1.events :=
  task_failure_persists_and_streams.1 envAuthFail (emptyCtx dbKeyless) "t1" "p1" "ls" 60
    pendingTask "SSH connection failed: Authentication failed: Authentication failed."
    rfl (by decide)

/-- Claim C5, as stated, is false of the code: with a `private_key`
platform resolving no key material, the deploy task does not fail with
a credential error before network I/O — it records exactly one Paramiko
connect attempt, made with no credentials at all, and its failure
message is a connection-stage error. -/
theorem deploy_no_credentials_attempts_connection :
    (deploy_keys_task envAuthFail (emptyCtx dbKeyless) "t1" "p1" none).1.net
      = [NetEffect.paramikoConnect "h1" 22 "root" none false]
    ∧ (deploy_keys_task envAuthFail (emptyCtx dbKeyless) "t1" "p1" none).2
      = some "SSH connection failed: Authentication failed: Authentication failed." := by
  decide

/-- Claim C5 (amended): credential resolution performs no validation
and raises no credential error. When a platform uses `private_key` auth
and neither the referenced SSH key nor the legacy inline encrypted key
resolves to key material, both tasks still construct the SSH helper
with no password and no private key and attempt the network connection
(the Paramiko connect call is recorded in the trace); when the remote
side rejects the credential-less attempt, the task fails only then, at
the connection step, with an "SSH connection failed: ..." message. -/
theorem no_key_material_still_connects (env : TaskEnv) (c0 : TaskCtx)
    (tid pid cmd : String) (tmo : Nat) (kids : Option (List String))
    (tr : TaskRunRec) (platform : PlatformRec) (m : String)
    (htr : c0.db.getTaskRun tid = some tr)
    (hpl : c0.db.getPlatform pid = some platform)
    (hauth : platform.auth_method = .private_key)
    (hres : (resolveCredentials c0.db platform env.decrypt).2 = none)
    (hkeys : (c0.db.queryKeys kids).isEmpty = false)
    (hout : env.net.connectOutcome = .authFailure m) :
    ((deploy_keys_task env c0 tid pid kids).1.net
        = c0.net ++ [NetEffect.paramikoConnect platform.host platform.port
            platform.username none false]
      ∧ (deploy_keys_task env c0 tid pid kids).2
        = some ("SSH connection failed: " ++ ("Authentication failed: " ++ m)))
    ∧ ((run_command_task env c0 tid pid cmd tmo).1.net
        = c0.net ++ [NetEffect.paramikoConnect platform.host platform.port
            platform.username none false]
      ∧ (run_command_task env c0 tid pid cmd tmo).2
        = some ("SSH connection failed: " ++ ("Authentication failed: " ++ m))) := by
  have hnp : ¬ (platform.auth_method = .password) := by
    rw [hauth]
    simp
  have hcreds : resolveCredentials c0.db platform env.decrypt = (none, none) := by
    have h2 : (resolveCredentials c0.db platform env.decrypt).1 = none := by
      unfold resolveCredentials
      rw [if_neg hnp]
    exact Prod.ext h2 hres
  have hconn : (taskHelper platform (none, none)).connect env.net
      = ({ taskHelper platform (none, none) with client := .unconnected },
        (false, some ("Authentication failed: " ++ m)),
        [NetEffect.paramikoConnect platform.host platform.port platform.username
          none false]) := by
    simp [SSHHelper.connect, taskHelper, hout]
  refine ⟨⟨?_, ?_⟩, ?_, ?_⟩
  · simp only [deploy_keys_task, htr, publish_db, getPlatform_setTaskRun, hpl,
      resolveCredentials_setTaskRun, hcreds, queryKeys_setTaskRun, hkeys,
      Bool.false_eq_true, if_false, hconn, eq_self_iff_true, if_true,
      taskExceptBlock_net, publish_net, Option.getD_some]
  · simp only [deploy_keys_task, htr, publish_db, getPlatform_setTaskRun, hpl,
      resolveCredentials_setTaskRun, hcreds, queryKeys_setTaskRun, hkeys,
      Bool.false_eq_true, if_false, hconn, eq_self_iff_true, if_true,
      taskExceptBlock_snd, Option.getD_some]
  · simp only [run_command_task, htr, publish_db, getPlatform_setTaskRun, hpl,
      resolveCredentials_setTaskRun, hcreds, hconn, eq_self_iff_true, if_true,
      taskExceptBlock_net, publish_net, Option.getD_some]
  · simp only [run_command_task, htr, publish_db, getPlatform_setTaskRun, hpl,
      resolveCredentials_setTaskRun, hcreds, hconn, eq_self_iff_true, if_true,
      taskExceptBlock_snd, Option.getD_some]

/-- Witness for `no_key_material_still_connects` at the concrete
credential-less platform. -/
theorem no_key_material_still_connects_witness :
    ((deploy_keys_task envAuthFail (emptyCtx dbKeyless) "t1" "p1" none).1.net
        = (emptyCtx dbKeyless).net ++ [NetEffect.paramikoConnect keylessPlatform.host
            keylessPlatform.port keylessPlatform.username none false]
      ∧ (deploy_keys_task envAuthFail (emptyCtx dbKeyless) "t1" "p1" none).2
        = some ("SSH connection failed: " ++ ("Authentication failed: "
            ++ "Authentication failed.")))
    ∧ ((run_command_task envAuthFail (emptyCtx dbKeyless) "t1" "p1" "ls" 60).1.net
        = (emptyCtx dbKeyless).net ++ [NetEffect.paramikoConnect keylessPlatform.host
            keylessPlatform.port keylessPlatform.username none false]
      ∧ (run_command_task envAuthFail (emptyCtx dbKeyless) "t1" "p1" "ls" 60).2
        = some ("SSH connection failed: " ++ ("Authentication failed: "
            ++ "Authentication failed."))) :=
  no_key_material_still_connects envAuthFail (emptyCtx dbKeyless) "t1" "p1" "ls" 60 none
    pendingTask keylessPlatform "Authentication failed."
    rfl rfl rfl rfl rfl rfl

end Testum
